import Mathlib

/-!
# Verification of the Traffic Microcides notebook

Shallow embedding of the computational cells of `Traffic_Microcides.ipynb`
(UK STATS19 microcide estimation) together with proofs of the spec's
testable properties.

Conventions:
* pandas/python integers are modelled as `ℕ` (all the relevant quantities —
  severities, classes, vehicle-type codes, vehicle groups, fatality counts,
  occurrence counts — are non-negative integers in the data);
* traffic volumes (floats) are modelled as `ℚ`, with `Option ℚ` where a
  `NaN` can arise, and a dedicated `PFloat` result type for the division
  that pandas performs when building the rate column;
* a Python expression that can raise is modelled with `Option` (`none` =
  the exception); total pandas operations are total functions.
-/

namespace STATS19

/-! ## Blame attributor (notebook code cell `Calculate_Microcides`) -/

/-- Python's built-in `max` applied to a list: `none` on the empty list
(CPython raises `ValueError: max() arg is an empty sequence`), otherwise a
left fold of binary `max` over the elements. -/
def pyMax : List ℕ → Option ℕ
  | [] => none
  | x :: xs => some (xs.foldl max x)

/-- `vehicles[:i] + vehicles[i+1:]` — the tuple of entities other than
entity `i` (Python slices clamp out-of-range bounds). -/
def otherVehicles (vehicles : List ℕ) (i : ℕ) : List ℕ :=
  vehicles.take i ++ vehicles.drop (i + 1)

/-- The `for i, death in enumerate(deaths)` loop body of
`Calculate_Microcides`, threading the `Caused_Fatalities` dictionary (a
total function `ℕ → ℕ`; the notebook dict is initialised with keys 0–9 and
the classifier only produces groups in that range).  `none` models the
`ValueError` that `max(())` would raise on an empty `other_vehicles`. -/
def CMGo (vehicles : List ℕ) (number : ℕ) :
    List (ℕ × ℕ) → (ℕ → ℕ) → Option (ℕ → ℕ)
  | [], led => some led
  | (i, death) :: rest, led =>
    if 0 < death then
      match pyMax (otherVehicles vehicles i) with
      | none => none
      | some top =>
          CMGo vehicles number rest
            (Function.update led top
              (led top + (otherVehicles vehicles i).count top * death * number))
    else CMGo vehicles number rest led

/-- `Calculate_Microcides(Accident_Type, Number)`: skips shapes with fewer
than two entities (the Python function returns `None` early, leaving the
ledger untouched), otherwise runs the enumerate loop.  The result is the
updated `Caused_Fatalities` ledger, or `none` if the loop hit the
empty-`max` error. -/
def Calculate_Microcides (accType : List ℕ × List ℕ) (number : ℕ)
    (led : ℕ → ℕ) : Option (ℕ → ℕ) :=
  if accType.1.length < 2 then some led
  else CMGo accType.1 number accType.2.enum led

/-- The `for acc_type, count in Accident_Type_Counts.iteritems()` driver
loop: folds `Calculate_Microcides` over the list of
`(accident type, occurrence count)` pairs. -/
def runBlame : List ((List ℕ × List ℕ) × ℕ) → (ℕ → ℕ) → Option (ℕ → ℕ)
  | [], led => some led
  | (s, n) :: rest, led =>
    match Calculate_Microcides s n led with
    | none => none
    | some led2 => runBlame rest led2

/-- Initial `Caused_Fatalities` ledger: every group starts at 0. -/
def initLedger : ℕ → ℕ := fun _ => 0

/-- Amount one `(index, death-count)` pair of a shape contributes to the
ledger entry of group `g` per occurrence: `tie_count * death` when `g` is
the maximal other vehicle group, 0 otherwise. -/
def pairBlame (vehicles : List ℕ) (p : ℕ × ℕ) (g : ℕ) : ℕ :=
  if 0 < p.2 then
    if pyMax (otherVehicles vehicles p.1) = some g then
      (otherVehicles vehicles p.1).count g * p.2
    else 0
  else 0

/-- Per-occurrence amount a whole shape contributes to ledger entry `g`. -/
def shapeDelta (s : List ℕ × List ℕ) (g : ℕ) : ℕ :=
  if s.1.length < 2 then 0
  else (s.2.enum.map (fun p => pairBlame s.1 p g)).sum

/-- Total blame units that one occurrence of a shape generates: for every
fatal entity, `tie_count * fatality count`; 0 for sub-2-entity shapes. -/
def shapeBlameUnits (s : List ℕ × List ℕ) : ℕ :=
  if s.1.length < 2 then 0
  else
    (s.2.enum.map (fun p =>
      if 0 < p.2 then
        (otherVehicles s.1 p.1).count ((pyMax (otherVehicles s.1 p.1)).getD 0)
          * p.2
      else 0)).sum

/-! ## Accident shape canonicalisation (notebook sort/groupby cell) -/

/-- The within-accident sort key of
`All_Microcide_Vehicles.sort_values(by = [acc, 'Vehicle_Group', 'Fatalities'])`:
lexicographic order on the (vehicle group, fatality count) pair. -/
def pairLe (p q : ℕ × ℕ) : Prop :=
  p.1 < q.1 ∨ (p.1 = q.1 ∧ p.2 ≤ q.2)

instance : DecidableRel pairLe := fun p q =>
  inferInstanceAs (Decidable (_ ∨ _))

instance : IsTotal (ℕ × ℕ) pairLe :=
  ⟨by intro a b; unfold pairLe; omega⟩

instance : IsTrans (ℕ × ℕ) pairLe :=
  ⟨by intro a b c; unfold pairLe; omega⟩

/-- Canonical per-accident ordering of the (vehicle group, fatalities)
rows — the effect of the stable two-column pandas sort on one accident's
rows.  (Any sorting algorithm yields this list: `pairLe` is total and
antisymmetric on the sort key, and the key is the whole row here.) -/
def canonicalize (rows : List (ℕ × ℕ)) : List (ℕ × ℕ) :=
  rows.insertionSort pairLe

/-- `Accident_Group[['Vehicle_Group', 'Fatalities']].apply(tuple, axis=1)`:
the aggregation key is the pair of column tuples read off the sorted rows. -/
def shapeKey (rows : List (ℕ × ℕ)) : List ℕ × List ℕ :=
  ((canonicalize rows).map Prod.fst, (canonicalize rows).map Prod.snd)

/-! ## Vehicle classifier (cells `Vehicle_Encoding` and `Vehicle_Group`) -/

/-- The `Vehicle_Encoding` dictionary in insertion (= iteration) order:
group number, tuple of raw STATS19 vehicle-type codes. -/
def Vehicle_Encoding : List (ℕ × List ℕ) :=
  [(1, [16, 22]),
   (2, [1]),
   (3, [2, 3, 4, 5, 23, 97]),
   (4, [9, 8, 19, 20]),
   (5, [19]),
   (6, [17]),
   (7, [18]),
   (8, [10, 11]),
   (9, [20, 21, 98])]

/-- The classification loop: `Vehicle_Group` starts at 0 and is overwritten
with `k` for each `(k, codes)` entry of `Vehicle_Encoding`, in iteration
order, whose tuple contains the row's raw `Vehicle_Type` code. -/
def Vehicle_Group (code : ℕ) : ℕ :=
  Vehicle_Encoding.foldl (fun acc kv => if code ∈ kv.2 then kv.1 else acc) 0

/-! ## Casualty filter (notebook cell 6) -/

/-- One row of the `Casualties` table (the two columns cell 6 filters on). -/
structure Casualty where
  Casualty_Severity : ℕ
  Casualty_Class : ℕ
deriving DecidableEq, Repr

/-- Cell 6 verbatim:
`Deaths = Casualties[Casualties['Casualty_Severity'] == 1]`, and when
`Include_Pedestrians` is false the notebook re-assigns
`Deaths = Casualties[Casualties['Casualty_Class'] != 3]`, starting again
from the unfiltered `Casualties` frame. -/
def Deaths (Casualties : List Casualty) (Include_Pedestrians : Bool) :
    List Casualty :=
  let deaths := Casualties.filter (fun c => c.Casualty_Severity == 1)
  if Include_Pedestrians then deaths
  else Casualties.filter (fun c => c.Casualty_Class != 3)

/-! ## Fatal accident filter and end-to-end ledger (cells 6, 8, 13, 15) -/

/-- One accident record of the joined source tables: the STATS19
accident-level severity and `Number_of_Vehicles`, its rows of the
`Vehicles` table as (Vehicle_Reference, raw Vehicle_Type) pairs, and its
rows of `Grouped_Deaths` — the per-(accident, Vehicle_Reference) fatal
casualty counts of cell 8, with pedestrian casualties already reassigned
to slot 0.  `Grouped_Deaths` is built from the unfiltered casualty table,
so `deaths` is carried for every accident, qualifying or not. -/
structure Accident where
  Accident_Severity : ℕ
  Number_of_Vehicles : ℕ
  vehicles : List (ℕ × ℕ)
  deaths : List (ℕ × ℕ)
deriving DecidableEq, Repr

/-- Cell 6: fatal accidents whose vehicle count lies between
`Minimum_Vehicles` and `Maximum_Vehicles` (both inclusive). -/
def Fatal_Small_Accidents (Accidents : List Accident)
    (Minimum_Vehicles Maximum_Vehicles : ℕ) : List Accident :=
  (Accidents.filter (fun a => a.Accident_Severity == 1)).filter
    (fun a => a.Number_of_Vehicles ≤ Maximum_Vehicles &&
      Minimum_Vehicles ≤ a.Number_of_Vehicles)

/-- The cell-8 outer merge restricted to one accident that passed the
filter, one (Vehicle_Group, Fatalities) pair per resulting row: each
vehicle row is left-joined with its slot's death count (no deaths → `NaN`
→ `fillna(0)` → 0), and every right-only death key — a slot with no
matching vehicle row, such as the synthetic pedestrian slot 0 — survives
with `Vehicle_Type` `NaN` → `fillna(0)` → type 0, which the cell-11 loop
classifies as `Vehicle_Group 0`. -/
def mergedRows (a : Accident) : List (ℕ × ℕ) :=
  a.vehicles.map (fun v => (Vehicle_Group v.2,
    ((a.deaths.find? (fun d => d.1 == v.1)).map Prod.snd).getD 0))
  ++ (a.deaths.filter
      (fun d => !(a.vehicles.any (fun v => v.1 == d.1)))).map
      (fun d => (Vehicle_Group 0, d.2))

/-- The rows an accident **outside** the filter still contributes through
the cell-8 outer merge: it has no row in `Fatality_Vehicles`, so every one
of its `Grouped_Deaths` keys survives as a right-only row with
`Vehicle_Type` `NaN` → `fillna(0)` → `Vehicle_Group 0`. -/
def leakedRows (a : Accident) : List (ℕ × ℕ) :=
  a.deaths.map (fun d => (Vehicle_Group 0, d.2))

/-- The accidents whose death keys leak into the merge: those not in
`Fatal_Small_Accidents` that have at least one fatal-casualty key (an
accident with no death keys contributes no rows and hence no groupby
group). -/
def Leaked_Accidents (Accidents : List Accident)
    (Minimum_Vehicles Maximum_Vehicles : ℕ) : List Accident :=
  (Accidents.filter (fun a => !(a.Accident_Severity == 1 &&
      (a.Number_of_Vehicles ≤ Maximum_Vehicles &&
        Minimum_Vehicles ≤ a.Number_of_Vehicles)))).filter
    (fun a => !a.deaths.isEmpty)

/-- All shapes the cell-13 groupby produces: the merged shapes of the
qualifying accidents together with the leaked all-group-0 shapes of the
excluded accidents that have death keys.  (The groupby interleaves the two
kinds in accident-index order; the list order is irrelevant to the ledger,
which `runBlame_eq` shows is a sum over the list.) -/
def allShapes (Accidents : List Accident)
    (Minimum_Vehicles Maximum_Vehicles : ℕ) : List (List ℕ × List ℕ) :=
  (Fatal_Small_Accidents Accidents Minimum_Vehicles Maximum_Vehicles).map
    (fun a => shapeKey (mergedRows a))
  ++ (Leaked_Accidents Accidents Minimum_Vehicles Maximum_Vehicles).map
    (fun a => shapeKey (leakedRows a))

/-- `value_counts` over the accident shapes: each distinct shape paired
with its occurrence count.  (`value_counts` lists shapes in descending
count order; the processing order is irrelevant to the final ledger — see
`runBlame_eq`, whose result is a sum over the list — so first-occurrence
order is used here.) -/
def Accident_Type_Counts (shapes : List (List ℕ × List ℕ)) :
    List ((List ℕ × List ℕ) × ℕ) :=
  shapes.dedup.map (fun s => (s, shapes.count s))

/-- The notebook pipeline from the source tables to the final
`Caused_Fatalities` ledger: filter, outer merge (including its leakage of
excluded accidents' death keys as group-0 rows), shape construction,
`value_counts`, blame loop. -/
def pipelineLedger (Accidents : List Accident)
    (Minimum_Vehicles Maximum_Vehicles : ℕ) : Option (ℕ → ℕ) :=
  runBlame
    (Accident_Type_Counts
      (allShapes Accidents Minimum_Vehicles Maximum_Vehicles))
    initLedger

/-! ## Rate calculator (cells 19 and 21) -/

/-- `Volume_Accident_Coding`: traffic-volume row label → vehicle group. -/
def Volume_Accident_Coding : List (String × ℕ) :=
  [("Buses & Coaches", 8),
   ("Cars and taxis", 4),
   ("Goods vehicles 2", 9),
   ("Light\nvans 1", 5),
   ("Motorcycles", 3),
   ("Pedal Cycles", 2)]

/-- One row of the `Microcides` frame before the rate column is added:
the `Traffic Volume` cell (a float; `none` models the `NaN` volume of a
row freshly created by `set_value` for a label absent from the volume
table) and the `Deaths` cell. -/
structure MRow where
  volume : Option ℚ
  deaths : ℕ
deriving DecidableEq, Repr

/-- The value pandas' float division produces for one row of
`Microcides['Deaths'] / Microcides['Traffic Volume']`: a finite float
(`num`), `+inf` (positive deaths over zero volume), or `nan` (0/0, or a
`NaN` volume). -/
inductive PFloat where
  | num : ℚ → PFloat
  | inf : PFloat
  | nan : PFloat
deriving DecidableEq, Repr

/-- IEEE-754 behaviour of the per-row division. -/
def pandasDiv (deaths : ℕ) (volume : Option ℚ) : PFloat :=
  match volume with
  | none => PFloat.nan
  | some q =>
      if q = 0 then (if deaths = 0 then PFloat.nan else PFloat.inf)
      else PFloat.num (deaths / q)

/-- `pd.DataFrame.from_dict(Ten_Year_Volume, orient='index')` followed by
`Microcides['Deaths'] = 0`. -/
def initTable (Ten_Year_Volume : List (String × ℚ)) :
    List (String × MRow) :=
  Ten_Year_Volume.map (fun p => (p.1, ⟨some p.2, 0⟩))

/-- `Microcides.set_value(k, 'Deaths', d)`: overwrite the `Deaths` cell of
every row labelled `k`; if no row is labelled `k`, pandas appends a new
row labelled `k` whose other cells are `NaN`. -/
def set_value (t : List (String × MRow)) (k : String) (d : ℕ) :
    List (String × MRow) :=
  if t.any (fun r => r.1 == k) then
    t.map (fun r => if r.1 == k then (r.1, ⟨r.2.volume, d⟩) else r)
  else t ++ [(k, ⟨none, d⟩)]

/-- The `for k, v in Volume_Accident_Coding.items()` loop writing
`Caused_Fatalities[v]` into the `Deaths` column. -/
def applyCoding (t : List (String × MRow)) (coding : List (String × ℕ))
    (caused : ℕ → ℕ) : List (String × MRow) :=
  coding.foldl (fun acc kv => set_value acc kv.1 (caused kv.2)) t

/-- Cell 21: the final `Microcides` frame — row label, volume/deaths
cells, and the `Microcides` rate column `Deaths / Traffic Volume`. -/
def Microcides (Ten_Year_Volume : List (String × ℚ))
    (coding : List (String × ℕ)) (caused : ℕ → ℕ) :
    List (String × MRow × PFloat) :=
  (applyCoding (initTable Ten_Year_Volume) coding caused).map
    (fun r => (r.1, r.2, pandasDiv r.2.deaths r.2.volume))

/-! ## Supporting lemmas -/

lemma otherVehicles_ne_nil {v : List ℕ} (hv : 2 ≤ v.length) (i : ℕ) :
    otherVehicles v i ≠ [] := by
  intro h
  have hlen : (otherVehicles v i).length = 0 := by rw [h]; rfl
  simp only [otherVehicles, List.length_append, List.length_take,
    List.length_drop] at hlen
  omega

lemma mem_of_mem_otherVehicles {v : List ℕ} {i x : ℕ}
    (h : x ∈ otherVehicles v i) : x ∈ v := by
  rcases List.mem_append.mp h with h' | h'
  · exact List.take_subset _ _ h'
  · exact List.drop_subset _ _ h'

lemma foldl_max_mem : ∀ (xs : List ℕ) (x : ℕ), xs.foldl max x ∈ x :: xs := by
  intro xs
  induction xs with
  | nil => intro x; simp
  | cons y ys ih =>
      intro x
      simp only [List.foldl_cons]
      rcases max_choice x y with hm | hm <;> rw [hm]
      · rcases List.mem_cons.mp (ih x) with h' | h' <;> simp [h']
      · rcases List.mem_cons.mp (ih y) with h' | h' <;> simp [h']

lemma pyMax_mem {l : List ℕ} {m : ℕ} (h : pyMax l = some m) : m ∈ l := by
  cases l with
  | nil => simp [pyMax] at h
  | cons x xs =>
      simp only [pyMax, Option.some.injEq] at h
      subst h
      exact foldl_max_mem xs x

lemma pyMax_isSome_of_ne_nil {l : List ℕ} (h : l ≠ []) :
    ∃ m, pyMax l = some m := by
  cases l with
  | nil => exact absurd rfl h
  | cons x xs => exact ⟨_, rfl⟩

lemma CMGo_eq (v : List ℕ) (N : ℕ) (hv : 2 ≤ v.length) :
    ∀ (pairs : List (ℕ × ℕ)) (led : ℕ → ℕ),
      CMGo v N pairs led =
        some (fun g => led g + N * (pairs.map (fun p => pairBlame v p g)).sum) := by
  intro pairs
  induction pairs with
  | nil =>
      intro led
      simp [CMGo]
  | cons p rest ih =>
      intro led
      obtain ⟨i, death⟩ := p
      by_cases hd : 0 < death
      · obtain ⟨top, htop⟩ := pyMax_isSome_of_ne_nil (otherVehicles_ne_nil hv i)
        simp only [CMGo, if_pos hd, htop]
        rw [ih]
        congr 1
        funext g
        by_cases hg : g = top
        · subst hg
          rw [Function.update_same]
          have hpb : pairBlame v (i, death) g =
              (otherVehicles v i).count g * death := by
            simp [pairBlame, hd, htop]
          simp only [List.map_cons, List.sum_cons, hpb]
          ring
        · rw [Function.update_noteq hg]
          have : pairBlame v (i, death) g = 0 := by
            simp only [pairBlame, if_pos hd, htop]
            rw [if_neg]
            simp only [Option.some.injEq]
            exact fun h => hg h.symm
          simp [this]
      · simp only [CMGo, if_neg hd]
        rw [ih]
        congr 1
        funext g
        have : pairBlame v (i, death) g = 0 := by simp [pairBlame, hd]
        simp [this]

lemma Calculate_Microcides_eq (s : List ℕ × List ℕ) (N : ℕ) (led : ℕ → ℕ) :
    Calculate_Microcides s N led =
      some (fun g => led g + N * shapeDelta s g) := by
  obtain ⟨v, ds⟩ := s
  by_cases h : v.length < 2
  · simp only [Calculate_Microcides, shapeDelta, if_pos h]
    rfl
  · simp only [Calculate_Microcides, shapeDelta, if_neg h]
    exact CMGo_eq v N (by omega) ds.enum led

lemma runBlame_eq : ∀ (types : List ((List ℕ × List ℕ) × ℕ)) (led : ℕ → ℕ),
    runBlame types led =
      some (fun g => led g + (types.map (fun p => p.2 * shapeDelta p.1 g)).sum) := by
  intro types
  induction types with
  | nil =>
      intro led
      simp [runBlame]
  | cons p rest ih =>
      intro led
      obtain ⟨s, n⟩ := p
      simp only [runBlame, Calculate_Microcides_eq]
      rw [ih]
      congr 1
      funext g
      simp only [List.map_cons, List.sum_cons]
      exact add_assoc _ _ _

lemma eq_of_map_fst_map_snd : ∀ {l l' : List (ℕ × ℕ)},
    l.map Prod.fst = l'.map Prod.fst → l.map Prod.snd = l'.map Prod.snd →
      l = l' := by
  intro l
  induction l with
  | nil =>
      intro l' h1 _
      cases l' with
      | nil => rfl
      | cons b t' => simp at h1
  | cons a t ih =>
      intro l' h1 h2
      cases l' with
      | nil => simp at h1
      | cons b t' =>
          simp only [List.map_cons, List.cons.injEq] at h1 h2
          have : a = b := Prod.ext h1.1 h2.1
          rw [this, ih h1.2 h2.2]

lemma foldl_encoding_unmapped {code : ℕ} :
    ∀ (l : List (ℕ × List ℕ)) (a : ℕ), (∀ kv ∈ l, code ∉ kv.2) →
      l.foldl (fun acc kv => if code ∈ kv.2 then kv.1 else acc) a = a := by
  intro l
  induction l with
  | nil => intro a _; rfl
  | cons kv t ih =>
      intro a h
      simp only [List.foldl_cons, if_neg (h kv (List.mem_cons_self kv t))]
      exact ih a (fun kv' h' => h kv' (List.mem_cons_of_mem kv h'))

lemma sum_map_ite_zero {α : Type} [DecidableEq α] {x : α} (f : α → ℕ) :
    ∀ {l : List α}, x ∉ l →
      (l.map (fun s => if s = x then f s else 0)).sum = 0 := by
  intro l
  induction l with
  | nil => intro _; rfl
  | cons y t ih =>
      intro hx
      have hyx : ¬y = x := fun h => hx (h ▸ List.mem_cons_self y t)
      simp only [List.map_cons, List.sum_cons, if_neg hyx,
        ih (fun h => hx (List.mem_cons_of_mem y h))]

lemma sum_map_ite_single {α : Type} [DecidableEq α] {x : α} (f : α → ℕ) :
    ∀ {l : List α}, l.Nodup → x ∈ l →
      (l.map (fun s => if s = x then f s else 0)).sum = f x := by
  intro l
  induction l with
  | nil => intro _ hx; cases hx
  | cons y t ih =>
      intro hnd hx
      rcases List.nodup_cons.mp hnd with ⟨hyt, hndt⟩
      by_cases hyx : y = x
      · subst hyx
        simp only [List.map_cons, List.sum_cons, if_pos rfl,
          sum_map_ite_zero f hyt]
        simp
      · have hxt : x ∈ t := by
          rcases List.mem_cons.mp hx with h | h
          · exact absurd h.symm hyx
          · exact h
        simp only [List.map_cons, List.sum_cons, if_neg hyx, ih hndt hxt,
          Nat.zero_add]

lemma sum_map_add_nat {α : Type} (g h : α → ℕ) :
    ∀ (l : List α),
      (l.map (fun s => g s + h s)).sum = (l.map g).sum + (l.map h).sum := by
  intro l
  induction l with
  | nil => rfl
  | cons y t ih =>
      simp only [List.map_cons, List.sum_cons, ih]
      omega

lemma sum_map_count_dedup {α : Type} [BEq α] [LawfulBEq α] [DecidableEq α] :
    ∀ (l : List α) (f : α → ℕ),
      (l.dedup.map (fun s => l.count s * f s)).sum = (l.map f).sum := by
  intro l
  induction l with
  | nil => intro f; rfl
  | cons x t ih =>
      intro f
      have hcount : ∀ s, (x :: t).count s =
          t.count s + if s = x then 1 else 0 := by
        intro s
        rw [List.count_cons]
        by_cases h : s = x
        · simp [h]
        · simp [h, Ne.symm h]
      by_cases hx : x ∈ t
      · rw [List.dedup_cons_of_mem hx]
        rw [List.map_congr_left (fun s _ => by rw [hcount s])]
        rw [List.map_congr_left
          (fun s _ => Nat.add_mul (t.count s) (if s = x then 1 else 0) (f s))]
        rw [sum_map_add_nat, ih f]
        have hone : ∀ s ∈ t.dedup,
            (if s = x then 1 else 0) * f s = if s = x then f s else 0 := by
          intro s _
          by_cases h : s = x <;> simp [h]
        rw [List.map_congr_left hone,
          sum_map_ite_single f (List.nodup_dedup t) (List.mem_dedup.mpr hx)]
        simp only [List.map_cons, List.sum_cons]
        omega
      · rw [List.dedup_cons_of_not_mem hx]
        simp only [List.map_cons, List.sum_cons]
        have hcx : (x :: t).count x = 1 := by
          rw [hcount x, if_pos rfl, List.count_eq_zero_of_not_mem hx]
        have hrest : ∀ s ∈ t.dedup,
            (x :: t).count s * f s = t.count s * f s := by
          intro s hs
          have hsx : ¬s = x := fun h =>
            hx (h ▸ List.mem_dedup.mp hs)
          rw [hcount s, if_neg hsx, Nat.add_zero]
        rw [hcx, List.map_congr_left hrest, ih f]
        simp only [List.map_cons, List.sum_cons, Nat.one_mul]

lemma sum_ATC (shapes : List (List ℕ × List ℕ))
    (f : List ℕ × List ℕ → ℕ) :
    ((Accident_Type_Counts shapes).map (fun p => p.2 * f p.1)).sum =
      (shapes.map f).sum := by
  unfold Accident_Type_Counts
  rw [List.map_map]
  have hc : ((fun p : (List ℕ × List ℕ) × ℕ => p.2 * f p.1) ∘
      fun s => (s, shapes.count s)) = fun s => shapes.count s * f s := rfl
  rw [hc]
  exact sum_map_count_dedup shapes f

lemma sum_range_pairBlame {v : List ℕ} (hv : 2 ≤ v.length)
    (hgroups : ∀ g ∈ v, g < 10) (p : ℕ × ℕ) :
    ∑ g in Finset.range 10, pairBlame v p g =
      if 0 < p.2 then
        (otherVehicles v p.1).count ((pyMax (otherVehicles v p.1)).getD 0)
          * p.2
      else 0 := by
  by_cases hd : 0 < p.2
  · obtain ⟨top, htop⟩ := pyMax_isSome_of_ne_nil (otherVehicles_ne_nil hv p.1)
    have htoplt : top < 10 :=
      hgroups _ (mem_of_mem_otherVehicles (pyMax_mem htop))
    rw [if_pos hd, htop, Option.getD_some]
    have hpt : ∀ g, pairBlame v p g =
        if g = top then (otherVehicles v p.1).count top * p.2 else 0 := by
      intro g
      by_cases hg : g = top
      · subst hg
        simp [pairBlame, hd, htop]
      · simp only [pairBlame, if_pos hd, htop, Option.some.injEq]
        rw [if_neg fun h => hg h.symm, if_neg hg]
    rw [Finset.sum_congr rfl (fun g _ => hpt g)]
    rw [Finset.sum_ite_eq' (Finset.range 10) top]
    simp [Finset.mem_range.mpr htoplt]
  · simp [pairBlame, hd]

lemma finset_sum_list_sum {α : Type} (s : Finset ℕ) (l : List α)
    (F : α → ℕ → ℕ) :
    ∑ g in s, (l.map (fun p => F p g)).sum =
      (l.map (fun p => ∑ g in s, F p g)).sum := by
  induction l with
  | nil => simp
  | cons x t ih => simp [Finset.sum_add_distrib, ih]

lemma sum_range_shapeDelta {s : List ℕ × List ℕ}
    (hgroups : ∀ g ∈ s.1, g < 10) :
    ∑ g in Finset.range 10, shapeDelta s g = shapeBlameUnits s := by
  by_cases h : s.1.length < 2
  · simp [shapeDelta, shapeBlameUnits, h]
  · have hv : 2 ≤ s.1.length := by omega
    simp only [shapeDelta, shapeBlameUnits, if_neg h]
    rw [finset_sum_list_sum]
    exact congrArg List.sum
      (List.map_congr_left (fun p _ => sum_range_pairBlame hv hgroups p))

lemma foldl_encoding_le {code : ℕ} :
    ∀ (l : List (ℕ × List ℕ)) (a : ℕ), a ≤ 9 → (∀ kv ∈ l, kv.1 ≤ 9) →
      l.foldl (fun acc kv => if code ∈ kv.2 then kv.1 else acc) a ≤ 9 := by
  intro l
  induction l with
  | nil => intro a ha _; exact ha
  | cons kv t ih =>
      intro a ha h
      simp only [List.foldl_cons]
      by_cases hc : code ∈ kv.2
      · rw [if_pos hc]
        exact ih kv.1 (h kv (List.mem_cons_self kv t))
          (fun kv' h' => h kv' (List.mem_cons_of_mem kv h'))
      · rw [if_neg hc]
        exact ih a ha (fun kv' h' => h kv' (List.mem_cons_of_mem kv h'))

lemma Vehicle_Group_le_nine (code : ℕ) : Vehicle_Group code ≤ 9 :=
  foldl_encoding_le Vehicle_Encoding 0 (by omega) (by decide)

lemma mem_shapeKey_fst {rows : List (ℕ × ℕ)} {g : ℕ}
    (h : g ∈ (shapeKey rows).1) : ∃ r ∈ rows, r.1 = g := by
  obtain ⟨r, hr, hg⟩ := List.mem_map.mp h
  exact ⟨r, (List.perm_insertionSort pairLe rows).mem_iff.mp hr, hg⟩

lemma shapeKey_groups_lt_ten {rows : List (ℕ × ℕ)}
    (h : ∀ r ∈ rows, r.1 ≤ 9) : ∀ g ∈ (shapeKey rows).1, g < 10 := by
  intro g hg
  obtain ⟨r, hr, hrg⟩ := mem_shapeKey_fst hg
  have := h r hr
  omega

lemma shapeKey_groups_zero {rows : List (ℕ × ℕ)}
    (h : ∀ r ∈ rows, r.1 = 0) : ∀ g ∈ (shapeKey rows).1, g = 0 := by
  intro g hg
  obtain ⟨r, hr, hrg⟩ := mem_shapeKey_fst hg
  rw [← hrg]
  exact h r hr

lemma mergedRows_fst_le_nine (a : Accident) :
    ∀ r ∈ mergedRows a, r.1 ≤ 9 := by
  intro r hr
  rcases List.mem_append.mp hr with h | h
  · obtain ⟨v, _, hv⟩ := List.mem_map.mp h
    rw [← hv]
    exact Vehicle_Group_le_nine v.2
  · obtain ⟨d, _, hd⟩ := List.mem_map.mp h
    rw [← hd]
    exact Vehicle_Group_le_nine 0

lemma leakedRows_fst_le_nine (a : Accident) :
    ∀ r ∈ leakedRows a, r.1 ≤ 9 := by
  intro r hr
  obtain ⟨d, _, hd⟩ := List.mem_map.mp hr
  rw [← hd]
  exact Vehicle_Group_le_nine 0

lemma leakedRows_fst_eq_zero (a : Accident) :
    ∀ r ∈ leakedRows a, r.1 = 0 := by
  intro r hr
  obtain ⟨d, _, hd⟩ := List.mem_map.mp hr
  rw [← hd]
  exact (by decide : Vehicle_Group 0 = 0)

lemma shapeDelta_zero_of_groups_zero {s : List ℕ × List ℕ}
    (hz : ∀ x ∈ s.1, x = 0) {g : ℕ} (hg : g ≠ 0) : shapeDelta s g = 0 := by
  unfold shapeDelta
  by_cases h : s.1.length < 2
  · rw [if_pos h]
  · rw [if_neg h]
    apply List.sum_eq_zero
    intro x hx
    obtain ⟨p, _, hp⟩ := List.mem_map.mp hx
    rw [← hp]
    unfold pairBlame
    by_cases hd : 0 < p.2
    · have hne : ¬ pyMax (otherVehicles s.1 p.1) = some g := fun hmax =>
        hg (hz g (mem_of_mem_otherVehicles (pyMax_mem hmax)))
      rw [if_pos hd, if_neg hne]
    · rw [if_neg hd]

lemma ATC_mem {shapes : List (List ℕ × List ℕ)}
    {p : (List ℕ × List ℕ) × ℕ} (hp : p ∈ Accident_Type_Counts shapes) :
    p.1 ∈ shapes := by
  obtain ⟨s, hs, hps⟩ := List.mem_map.mp hp
  rw [← hps]
  exact List.mem_dedup.mp hs

lemma allShapes_groups_lt_ten {Accidents : List Accident}
    {minV maxV : ℕ} :
    ∀ s ∈ allShapes Accidents minV maxV, ∀ g ∈ s.1, g < 10 := by
  intro s hs
  rcases List.mem_append.mp hs with h | h
  · obtain ⟨a, _, ha⟩ := List.mem_map.mp h
    rw [← ha]
    exact shapeKey_groups_lt_ten (mergedRows_fst_le_nine a)
  · obtain ⟨a, _, ha⟩ := List.mem_map.mp h
    rw [← ha]
    exact shapeKey_groups_lt_ten (leakedRows_fst_le_nine a)

lemma runBlame_total (types : List ((List ℕ × List ℕ) × ℕ))
    (led : ℕ → ℕ) (hgroups : ∀ p ∈ types, ∀ g ∈ p.1.1, g < 10) :
    (runBlame types led).map (fun led2 => ∑ g in Finset.range 10, led2 g) =
      some ((∑ g in Finset.range 10, led g) +
        (types.map (fun p => p.2 * shapeBlameUnits p.1)).sum) := by
  rw [runBlame_eq]
  simp only [Option.map_some', Option.some.injEq]
  rw [Finset.sum_add_distrib]
  congr 1
  rw [finset_sum_list_sum (Finset.range 10) types
    (fun p g => p.2 * shapeDelta p.1 g)]
  apply congrArg List.sum
  apply List.map_congr_left
  intro p hp
  rw [← Finset.mul_sum]
  rw [sum_range_shapeDelta (hgroups p hp)]

lemma Microcides_mem {vol : List (String × ℚ)} {coding : List (String × ℕ)}
    {caused : ℕ → ℕ} {c : String} {row : MRow} {rate : PFloat}
    (hmem : (c, row, rate) ∈ Microcides vol coding caused) :
    rate = pandasDiv row.deaths row.volume ∧
      (c, row) ∈ applyCoding (initTable vol) coding caused := by
  obtain ⟨r, hr, heq⟩ := List.mem_map.mp hmem
  have hc : r.1 = c := congrArg Prod.fst heq
  have h2 : (r.2, pandasDiv r.2.deaths r.2.volume) = (row, rate) :=
    congrArg Prod.snd heq
  have hrow : r.2 = row := congrArg Prod.fst h2
  have hrate : pandasDiv r.2.deaths r.2.volume = rate := congrArg Prod.snd h2
  refine ⟨by rw [← hrate, hrow], ?_⟩
  have : (c, row) = r := by
    rw [← hc, ← hrow]
  rw [this]
  exact hr

lemma set_value_mem_of_ne {t : List (String × MRow)} {k c : String}
    (hck : c ≠ k) (d : ℕ) (row : MRow) :
    ((c, row) ∈ set_value t k d) ↔ (c, row) ∈ t := by
  unfold set_value
  by_cases h : t.any (fun r => r.1 == k)
  · rw [if_pos h]
    constructor
    · intro hm
      obtain ⟨r, hr, heq⟩ := List.mem_map.mp hm
      by_cases hrk : r.1 = k
      · rw [if_pos (by exact beq_iff_eq.mpr hrk)] at heq
        have : r.1 = c := congrArg Prod.fst heq
        exact absurd (this ▸ hrk) hck
      · rw [if_neg (by simpa using hrk)] at heq
        rw [← heq]
        exact hr
    · intro hm
      refine List.mem_map.mpr ⟨(c, row), hm, ?_⟩
      rw [if_neg (by simpa using hck)]
  · rw [if_neg h]
    rw [List.mem_append]
    constructor
    · rintro (hm | hm)
      · exact hm
      · exact absurd (congrArg Prod.fst (List.mem_singleton.mp hm)) hck
    · exact Or.inl

lemma applyCoding_not_mem {caused : ℕ → ℕ} :
    ∀ (coding : List (String × ℕ)) (t : List (String × MRow)) (c : String)
      (row : MRow), (∀ kv ∈ coding, kv.1 ≠ c) →
      (((c, row) ∈ applyCoding t coding caused) ↔ (c, row) ∈ t) := by
  intro coding
  induction coding with
  | nil => intro t c row _; exact Iff.rfl
  | cons kv rest ih =>
      intro t c row h
      have h1 : kv.1 ≠ c := h kv (List.mem_cons_self kv rest)
      show ((c, row) ∈ applyCoding (set_value t kv.1 (caused kv.2)) rest
        caused) ↔ _
      rw [ih _ c row (fun kv' h' => h kv' (List.mem_cons_of_mem kv h'))]
      exact set_value_mem_of_ne (fun hc => h1 hc.symm) _ _

lemma mem_initTable {vol : List (String × ℚ)} {c : String} {row : MRow}
    (h : (c, row) ∈ initTable vol) :
    row.deaths = 0 ∧ ∃ q, (c, q) ∈ vol ∧ row.volume = some q := by
  obtain ⟨p, hp, heq⟩ := List.mem_map.mp h
  have hc : p.1 = c := congrArg Prod.fst heq
  have hrow : (⟨some p.2, 0⟩ : MRow) = row := congrArg Prod.snd heq
  rw [← hrow]
  refine ⟨rfl, p.2, ?_, rfl⟩
  rw [← hc]
  simpa using hp

/-! ## Claim theorems -/

/-- C1: for every shape with at least 2 entities processed by
`Calculate_Microcides`, the ledger entry of each group `g` grows by
`occurrence_count` times the sum, over entity indices `i` with nonzero
fatality count `d`, of `tie_count * d` whenever `g` is the maximal group
among the other entities (`pairBlame` packages exactly that amount); in
particular, for shape groups `[4,4,2]` with fatalities `[0,0,1]` occurring
`N` times, group 4 receives `2 * 1 * N` — both tied cars get full credit. -/
theorem blame_rule_adds_tie_death_number :
    (∀ (v ds : List ℕ) (N : ℕ) (led : ℕ → ℕ), 2 ≤ v.length → ∀ g : ℕ,
      (Calculate_Microcides (v, ds) N led).map (fun led2 => led2 g) =
        some (led g + N * (ds.enum.map (fun p => pairBlame v p g)).sum))
    ∧ ∀ N : ℕ,
      (Calculate_Microcides ([4, 4, 2], [0, 0, 1]) N initLedger).map
          (fun led2 => led2 4) = some (2 * 1 * N) := by
  constructor
  · intro v ds N led hv g
    rw [Calculate_Microcides_eq]
    simp only [Option.map_some', Option.some.injEq]
    simp [shapeDelta, Nat.not_lt.mpr hv]
  · intro N
    rw [Calculate_Microcides_eq]
    simp only [Option.map_some', Option.some.injEq]
    have h2 : shapeDelta ([4, 4, 2], [0, 0, 1]) 4 = 2 := by decide
    rw [h2]
    simp [initLedger]
    ring

theorem blame_rule_adds_tie_death_number_witness :
    2 ≤ ([4, 2] : List ℕ).length ∧
      (Calculate_Microcides ([4, 2], [1, 0]) 3 initLedger).map
          (fun led2 => led2 2) =
        some (initLedger 2 +
          3 * (([1, 0] : List ℕ).enum.map (fun p => pairBlame [4, 2] p 2)).sum) :=
  ⟨by decide,
    blame_rule_adds_tie_death_number.1 [4, 2] [1, 0] 3 initLedger (by decide) 2⟩

/-- C3: `Calculate_Microcides` skips every shape with fewer than 2
entities, returning the ledger unchanged (zero blame); removing any entity
index from a list of length ≥ 2 leaves a non-empty `other_vehicles`; and
consequently the attributor never reaches the empty-sequence (`max(())`)
error branch: it always returns a ledger. -/
theorem attributor_skips_singletons_and_never_errors :
    (∀ (s : List ℕ × List ℕ) (N : ℕ) (led : ℕ → ℕ), s.1.length < 2 →
      Calculate_Microcides s N led = some led)
    ∧ (∀ (v : List ℕ) (i : ℕ), 2 ≤ v.length → otherVehicles v i ≠ [])
    ∧ ∀ (s : List ℕ × List ℕ) (N : ℕ) (led : ℕ → ℕ),
        (Calculate_Microcides s N led).isSome := by
  refine ⟨?_, ?_, ?_⟩
  · intro s N led h
    simp [Calculate_Microcides, h]
  · intro v i hv
    exact otherVehicles_ne_nil hv i
  · intro s N led
    rw [Calculate_Microcides_eq]
    rfl

theorem attributor_skips_singletons_and_never_errors_witness :
    ((([5] : List ℕ), ([1] : List ℕ)).1.length < 2 ∧
      Calculate_Microcides ([5], [1]) 7 initLedger = some initLedger) ∧
      2 ≤ ([4, 2] : List ℕ).length ∧ otherVehicles [4, 2] 0 ≠ [] :=
  ⟨⟨by decide,
    attributor_skips_singletons_and_never_errors.1 ([5], [1]) 7 initLedger
      (by decide)⟩,
   by decide,
   attributor_skips_singletons_and_never_errors.2.1 [4, 2] 0 (by decide)⟩

/-- C4: the canonicalized per-accident outcome sequence is sorted
non-decreasing in the lexicographic (vehicle group, fatality count) order,
and two accidents receive the same `AccidentShape` key (the pair of column
tuples) exactly when their canonicalized sequences are identical. -/
theorem canonical_sorted_and_key_iff :
    (∀ rows : List (ℕ × ℕ), List.Sorted pairLe (canonicalize rows))
    ∧ ∀ a b : List (ℕ × ℕ),
        shapeKey a = shapeKey b ↔ canonicalize a = canonicalize b := by
  constructor
  · intro rows
    exact List.sorted_insertionSort pairLe rows
  · intro a b
    constructor
    · intro h
      unfold shapeKey at h
      rw [Prod.mk.injEq] at h
      exact eq_of_map_fst_map_snd h.1 h.2
    · intro h
      unfold shapeKey
      rw [h]

theorem canonical_sorted_and_key_iff_witness :
    shapeKey [(4, 0), (2, 1)] = shapeKey [(2, 1), (4, 0)] :=
  (canonical_sorted_and_key_iff.2 [(4, 0), (2, 1)] [(2, 1), (4, 0)]).mpr
    (by decide)

/-- C5 counterexample: the claim equates the BlameLedger total with the
tie-weighted death assignments of the **qualifying** accidents alone
("never more, never fewer").  But `Grouped_Deaths` is built from the
unfiltered casualty table and the cell-8 merge is `outer`, so the death
keys of a fatal accident excluded by the vehicle-count filter survive as
group-0 rows and their shape reaches `Calculate_Microcides`.  Concretely:
one 5-vehicle fatal accident with one death in each of two cars, bounds
`[0, 4]` — no accident qualifies, so the claim's sum is 0, yet the leaked
shape `([0,0],[1,1])` puts 2 blame units on group 0: the ledger total is
2, not 0. -/
theorem conservation_counterexample :
    Fatal_Small_Accidents [⟨1, 5, [(1, 9), (2, 9), (3, 9), (4, 9), (5, 9)],
        [(1, 1), (2, 1)]⟩] 0 4 = [] ∧
      (pipelineLedger [⟨1, 5, [(1, 9), (2, 9), (3, 9), (4, 9), (5, 9)],
          [(1, 1), (2, 1)]⟩] 0 4).map
        (fun led => ∑ g in Finset.range 10, led g) = some 2 := by
  decide

/-- C5 (amended): conservation with the leak accounted for — after
processing the whole dataset the sum of all BlameLedger entries equals the
total (death, top-group-tie) assignments of the qualifying accidents'
merged shapes **plus** the same total over the leaked all-group-0 shapes
of the fatal-casualty accidents outside the vehicle-count filter
(`shapeBlameUnits` sums `tie_count * fatality count` over the fatal
entities of a ≥2-entity shape); never more and never fewer than that
combined sum. -/
theorem ledger_conservation (Accidents : List Accident) (minV maxV : ℕ) :
    (pipelineLedger Accidents minV maxV).map
        (fun led => ∑ g in Finset.range 10, led g) =
      some (((Fatal_Small_Accidents Accidents minV maxV).map
            (fun a => shapeBlameUnits (shapeKey (mergedRows a)))).sum +
          ((Leaked_Accidents Accidents minV maxV).map
            (fun a => shapeBlameUnits (shapeKey (leakedRows a)))).sum) := by
  unfold pipelineLedger
  rw [runBlame_total _ initLedger
    (fun p hp => allShapes_groups_lt_ten p.1 (ATC_mem hp))]
  congr 1
  have hinit : (∑ g in Finset.range 10, initLedger g) = 0 := by
    simp [initLedger]
  rw [hinit, Nat.zero_add, sum_ATC]
  unfold allShapes
  rw [List.map_append, List.sum_append, List.map_map, List.map_map]
  rfl

/-- C6 counterexample: the claim says widening `max_vehicles` never
decreases **any** BlameLedger total.  Ledger entry 0 can decrease: a
5-vehicle fatal accident with one death in each of two cars is excluded at
`Maximum_Vehicles = 4`, where its leaked shape `([0,0],[1,1])` adds 2 to
group 0; at `Maximum_Vehicles = 5` the accident is included with its real
shape `([4,4,4,4,4],[0,0,0,1,1])`, which blames group 4 only — entry 0
drops from 2 to 0. -/
theorem ledger_entry_zero_decreases_counterexample :
    (4 : ℕ) ≤ 5 ∧
      (pipelineLedger [⟨1, 5, [(1, 9), (2, 9), (3, 9), (4, 9), (5, 9)],
          [(1, 1), (2, 1)]⟩] 0 4).map (fun led => led 0) = some 2 ∧
      (pipelineLedger [⟨1, 5, [(1, 9), (2, 9), (3, 9), (4, 9), (5, 9)],
          [(1, 1), (2, 1)]⟩] 0 5).map (fun led => led 0) = some 0 ∧
      ¬ (2 ≤ 0) := by
  decide

/-- C6 (amended): for a fixed input dataset and fixed `Minimum_Vehicles`,
widening `Maximum_Vehicles` never decreases the end-to-end
`Caused_Fatalities` entry of any **nonzero** vehicle group (leaked shapes
are all-group-0 and blame only group 0, so for `g ≠ 0` relaxing the filter
only adds qualifying accidents' non-negative contributions; entry 0 may
decrease, as the counterexample shows). -/
theorem ledger_monotone_in_max_vehicles (Accidents : List Accident)
    (minV max1 max2 : ℕ) (hmx : max1 ≤ max2) (g : ℕ) (hg : g ≠ 0)
    (x1 x2 : ℕ)
    (h1 : (pipelineLedger Accidents minV max1).map (fun led => led g) =
      some x1)
    (h2 : (pipelineLedger Accidents minV max2).map (fun led => led g) =
      some x2) :
    x1 ≤ x2 := by
  unfold pipelineLedger at h1 h2
  rw [runBlame_eq] at h1 h2
  simp only [Option.map_some', Option.some.injEq] at h1 h2
  subst h1
  subst h2
  have e1 := sum_ATC (allShapes Accidents minV max1)
    (fun s => shapeDelta s g)
  have e2 := sum_ATC (allShapes Accidents minV max2)
    (fun s => shapeDelta s g)
  simp only [e1, e2]
  apply Nat.add_le_add_left
  unfold allShapes
  rw [List.map_append, List.sum_append, List.map_append, List.sum_append]
  have hleak : ∀ M : ℕ,
      (((Leaked_Accidents Accidents minV M).map
        (fun a => shapeKey (leakedRows a))).map
          (fun s => shapeDelta s g)).sum = 0 := by
    intro M
    apply List.sum_eq_zero
    intro x hx
    obtain ⟨s, hs, hsx⟩ := List.mem_map.mp hx
    obtain ⟨a, _, has⟩ := List.mem_map.mp hs
    rw [← hsx, ← has]
    exact shapeDelta_zero_of_groups_zero
      (shapeKey_groups_zero (leakedRows_fst_eq_zero a)) hg
  rw [hleak max1, hleak max2, Nat.add_zero, Nat.add_zero]
  rw [List.map_map, List.map_map]
  have hsub : List.Sublist (Fatal_Small_Accidents Accidents minV max1)
      (Fatal_Small_Accidents Accidents minV max2) := by
    unfold Fatal_Small_Accidents
    apply List.monotone_filter_right
    intro a ha
    simp only [Bool.and_eq_true, decide_eq_true_eq] at ha ⊢
    exact ⟨le_trans ha.1 hmx, ha.2⟩
  exact List.Sublist.sum_le_sum (hsub.map _) (fun a _ => Nat.zero_le a)

theorem ledger_monotone_in_max_vehicles_witness :
    (2 : ℕ) ≤ 3 ∧ (4 : ℕ) ≠ 0 ∧
      (pipelineLedger [⟨1, 3, [(1, 1), (2, 9)], [(1, 1)]⟩] 0 2).map
          (fun led => led 4) = some 0 ∧
      (pipelineLedger [⟨1, 3, [(1, 1), (2, 9)], [(1, 1)]⟩] 0 3).map
          (fun led => led 4) = some 1 ∧
      (0 : ℕ) ≤ 1 :=
  ⟨by decide, by decide, by decide, by decide,
    ledger_monotone_in_max_vehicles [⟨1, 3, [(1, 1), (2, 9)], [(1, 1)]⟩]
      0 2 3 (by decide) 4 (by decide) 0 1 (by decide) (by decide)⟩

/-- C2 (code bug): with `Include_Pedestrians = false` the notebook
re-filters from the complete `Casualties` frame on casualty class alone,
dropping the fatality filter, so a non-fatal non-pedestrian casualty
(severity 2, class 1) is retained in `Deaths` — although its severity is
not the fatal code 1, contradicting the claim (and the notebook's own
text) that only fatal casualties are kept.  With
`Include_Pedestrians = true` the same casualty is correctly dropped. -/
theorem deaths_filter_keeps_nonfatal_when_excluding_pedestrians :
    Deaths [⟨2, 1⟩] false = [⟨2, 1⟩] ∧ Deaths [⟨2, 1⟩] true = [] ∧
      (⟨2, 1⟩ : Casualty).Casualty_Severity ≠ 1 := by
  refine ⟨rfl, rfl, by decide⟩

/-- C7: every row of the final `Microcides` table has its rate column
equal to `Deaths / Traffic Volume` for that row (a finite quotient
whenever the volume is a nonzero number), and every row whose label is
not a key of the volume-to-group coding keeps `Deaths = 0` and carries
the volume found in the traffic-volume table. -/
theorem microcides_rate_and_default (Ten_Year_Volume : List (String × ℚ))
    (coding : List (String × ℕ)) (caused : ℕ → ℕ) (c : String) (row : MRow)
    (rate : PFloat)
    (hmem : (c, row, rate) ∈ Microcides Ten_Year_Volume coding caused) :
    rate = pandasDiv row.deaths row.volume
    ∧ (∀ q : ℚ, row.volume = some q → q ≠ 0 →
        rate = PFloat.num (row.deaths / q))
    ∧ ((∀ kv ∈ coding, kv.1 ≠ c) →
        row.deaths = 0 ∧ ∃ q, (c, q) ∈ Ten_Year_Volume ∧
          row.volume = some q) := by
  obtain ⟨hrate, hmem2⟩ := Microcides_mem hmem
  refine ⟨hrate, ?_, ?_⟩
  · intro q hq hq0
    rw [hrate, hq]
    simp [pandasDiv, hq0]
  · intro hnc
    exact mem_initTable ((applyCoding_not_mem coding _ c row hnc).mp hmem2)

theorem microcides_rate_and_default_witness :
    (("B", (⟨none, 7⟩ : MRow), PFloat.nan) ∈
        Microcides [("A", 2)] [("B", 4)] (fun _ => 7)) ∧
      PFloat.nan = pandasDiv (⟨none, 7⟩ : MRow).deaths
        (⟨none, 7⟩ : MRow).volume :=
  ⟨by decide,
    (microcides_rate_and_default [("A", 2)] [("B", 4)] (fun _ => 7) "B"
      ⟨none, 7⟩ PFloat.nan (by decide)).1⟩

/-- C8 counterexample: the claim says a zero (or missing) traffic volume
for a category with attributed deaths makes the rate computation raise an
error that aborts the run.  It does not: the pandas division is total, the
run completes, and the output table silently contains an infinite rate.
Concretely, with volume table `{"Cars and taxis": 0}`, coding
`{"Cars and taxis": 4}` and 5 attributed deaths for group 4, the pipeline
returns a table whose only row carries rate `+inf`. -/
theorem zero_volume_rate_counterexample :
    Microcides [("Cars and taxis", 0)] [("Cars and taxis", 4)]
        (fun g => if g = 4 then 5 else 0) =
      [("Cars and taxis", ⟨some 0, 5⟩, PFloat.inf)] := by
  decide

/-- C8 (amended): if the traffic volume for a category with attributed
deaths is zero, the computation does not raise — the output row silently
carries an infinite rate; a missing (`NaN`) volume yields a `NaN` rate. -/
theorem zero_volume_yields_silent_inf (Ten_Year_Volume : List (String × ℚ))
    (coding : List (String × ℕ)) (caused : ℕ → ℕ) (c : String) (row : MRow)
    (rate : PFloat)
    (hmem : (c, row, rate) ∈ Microcides Ten_Year_Volume coding caused) :
    (row.volume = some 0 → row.deaths ≠ 0 → rate = PFloat.inf)
    ∧ (row.volume = none → rate = PFloat.nan) := by
  obtain ⟨hrate, -⟩ := Microcides_mem hmem
  constructor
  · intro hv hd
    rw [hrate, hv]
    simp [pandasDiv, hd]
  · intro hv
    rw [hrate, hv]
    rfl

theorem zero_volume_yields_silent_inf_witness :
    (("X", (⟨some 0, 5⟩ : MRow), PFloat.inf) ∈
        Microcides [("X", 0)] [("X", 4)] (fun g => if g = 4 then 5 else 0)) ∧
      (⟨some 0, 5⟩ : MRow).volume = some 0 ∧
      (⟨some 0, 5⟩ : MRow).deaths ≠ 0 ∧
      PFloat.inf = PFloat.inf :=
  ⟨by decide, rfl, by decide,
    (zero_volume_yields_silent_inf [("X", 0)] [("X", 4)]
      (fun g => if g = 4 then 5 else 0) "X" ⟨some 0, 5⟩ PFloat.inf
      (by decide)).1 rfl (by decide)⟩

/-- C9: a raw vehicle-type code that appears in no tuple of
`Vehicle_Encoding` is classified as `Vehicle_Group = 0`; the classifier is
a total function (the pandas loop assigns a default and overwrites, so it
can never raise on an unmapped or missing code). -/
theorem unmapped_codes_default_to_group_zero (code : ℕ)
    (h : ∀ kv ∈ Vehicle_Encoding, code ∉ kv.2) :
    Vehicle_Group code = 0 :=
  foldl_encoding_unmapped Vehicle_Encoding 0 h

theorem unmapped_codes_default_to_group_zero_witness :
    (∀ kv ∈ Vehicle_Encoding, 99 ∉ kv.2) ∧ Vehicle_Group 99 = 0 :=
  ⟨by decide, unmapped_codes_default_to_group_zero 99 (by decide)⟩

/-- C10: raw codes 19 and 20 appear in group 4's tuple and again in a
later group's tuple (19 in group 5, vans; 20 in group 9, HGVs); because
the classification loop iterates the encoding in increasing key order and
every match overwrites the previous assignment, code 19 is classified as
group 5 and code 20 as group 9 — never group 4: the lookup is
last-write-wins on overlapping codes. -/
theorem overlapping_codes_last_write_wins :
    ((4, [9, 8, 19, 20]) ∈ Vehicle_Encoding ∧
      (5, [19]) ∈ Vehicle_Encoding ∧ (9, [20, 21, 98]) ∈ Vehicle_Encoding ∧
      19 ∈ [9, 8, 19, 20] ∧ 19 ∈ [19] ∧
      20 ∈ [9, 8, 19, 20] ∧ 20 ∈ [20, 21, 98]) ∧
    Vehicle_Group 19 = 5 ∧ Vehicle_Group 20 = 9 ∧
    Vehicle_Group 19 ≠ 4 ∧ Vehicle_Group 20 ≠ 4 := by
  decide

end STATS19
